import Mathlib

/-!
Verification development for the adaptive question scheduling and delivery
engine (questions service).  The definitions below are shallow embeddings of
the Python source:

* `src/questions/models/questions.py` — data model (`AnswerState`,
  `QuestionType`, `Question`, `AnswerRecord`, `calculate_points`);
* `src/questions/schedule/generators.py` — `GeneratorInterface._get_planned`,
  `GeneratorInterface._get_person_questions`, `SimpleRandomGenerator.next_bunch`,
  `StatRandomGenerator.next_bunch`, `Session.mark_question_as_transferred`,
  `Session.register_answer`;
* `src/questions/schedule/schedule.py` — `Schedule.run` (one loop iteration)
  and `Schedule.task`.

Timestamps and durations are modelled as rationals (seconds), floats as
rationals where stored in the database and as real numbers inside the
statistical weight computation.  The database is modelled as a snapshot:
a list of questions and a list of answer records in insertion order.
Python exceptions escaping an operation are modelled by an `Option` result
(`none` = the operation raised).  Randomness (`np.random.choice`) is modelled
by an explicit selection-function parameter.
-/

namespace TP

/-- `AnswerState` enum from `models/questions.py`. -/
inductive AnswerState where
  | NOT_ANSWERED
  | TRANSFERRED
  | ANSWERED
deriving DecidableEq, Repr

/-- `QuestionType` enum from `models/questions.py`. -/
inductive QuestionType where
  | TEST
  | OPEN
deriving DecidableEq, Repr

/-- `Question` row from `models/questions.py` (the fields the scheduling core
reads: id, canonical answer, associated group ids, difficulty level, type). -/
structure Question where
  id : Nat
  answer : String
  groups : List Nat
  level : Int
  qtype : QuestionType
deriving DecidableEq, Repr

/-- `AnswerRecord` row from `models/questions.py`.  `ask_time` is kept
optional because `Session.mark_question_as_transferred` checks it against
`None`; `points` is the stored float. -/
structure AnswerRecord where
  id : Nat
  question_id : Nat
  person_id : Nat
  person_answer : Option String
  answer_time : Option ℚ
  ask_time : Option ℚ
  state : AnswerState
  points : ℚ
deriving DecidableEq, Repr

/-- Modelled from the spec: the `Person` entity of the questions service is
imported from a `models/users.py` that is not part of the sources at hand;
`generators.py` iterates `person.groups` as pairs `(group_id, target_level)`
("membership in zero-or-more Groups, each membership carrying a
`target_level`"), which fixes the shape used here. -/
structure Person where
  id : Nat
  groups : List (Nat × Int)
deriving DecidableEq, Repr

/-- `db.get(AnswerRecord, id)`: point lookup by primary key. -/
def dbGet (db : List AnswerRecord) (i : Nat) : Option AnswerRecord :=
  db.find? (fun r => r.id == i)

/-- Committing a mutated row: replace the row with the same primary key. -/
def dbUpdate (db : List AnswerRecord) (r : AnswerRecord) : List AnswerRecord :=
  db.map (fun x => if x.id == r.id then r else x)

/-- `AnswerRecord.calculate_points` from `models/questions.py`: TEST questions
score 1 on exact string match of `person_answer` with the canonical answer and
0 otherwise; OPEN questions always score 0. -/
def calculate_points (q : Question) (r : AnswerRecord) : AnswerRecord :=
  match q.qtype with
  | QuestionType.TEST =>
      if r.person_answer = some q.answer then { r with points := 1 }
      else { r with points := 0 }
  | QuestionType.OPEN => { r with points := 0 }

/-- `Session.register_answer` from `schedule/generators.py`.  It re-fetches
the record by id (`none` result = the record is gone and attribute access
raises) and, whenever `user_answer` is not `None`, overwrites
`person_answer`, sets `state = ANSWERED`, sets `answer_time = now`,
recomputes the points from the question joined by `question_id`, and commits.
There is no check of the current state.  Returns the committed database and
the updated record. -/
def register_answer (questions : List Question) (db : List AnswerRecord)
    (now : ℚ) (recId : Nat) (user_answer : Option String) :
    Option (List AnswerRecord × AnswerRecord) :=
  match dbGet db recId with
  | none => none
  | some r =>
    match user_answer with
    | none => some (db, r)
    | some s =>
      match questions.find? (fun q => q.id == r.question_id) with
      | none => none
      | some q =>
        let r1 := calculate_points q
          { r with person_answer := some s, state := AnswerState.ANSWERED,
                   answer_time := some now }
        some (dbUpdate db r1, r1)

/-- `Session.mark_question_as_transferred` from `schedule/generators.py`:
re-fetches the record, unconditionally sets `state = TRANSFERRED`, backfills
`ask_time` with `now` when it is unset, and commits. -/
def mark_question_as_transferred (db : List AnswerRecord) (now : ℚ)
    (recId : Nat) : Option (List AnswerRecord) :=
  match dbGet db recId with
  | none => none
  | some r =>
    let r1 := { r with state := AnswerState.TRANSFERRED }
    let r2 := if r1.ask_time = none then { r1 with ask_time := some now } else r1
    some (dbUpdate db r2)

/-! ### Dispatcher (`schedule/schedule.py`) -/

/-- The live configuration read from `Settings` by `Schedule.from_settings`. -/
structure SchedConfig where
  every : ℚ
  week_days : Option (List Nat)
  from_time : Option ℚ
  to_time : Option ℚ
deriving DecidableEq, Repr

/-- One observation of the wall clock inside `Schedule.run`: the absolute
timestamp `now`, its time-of-day `now.time()` and `now.weekday()`. -/
structure Tick where
  abs : ℚ
  tod : ℚ
  weekday : Nat
deriving DecidableEq, Repr

/-- What one loop iteration of `Schedule.run` did: whether `self.task()` was
called, the value of `previous_call` at the moment `task()` was entered, and
the value of `previous_call` after the iteration. -/
structure TickOutcome where
  fired : Bool
  prevAtBody : Option ℚ
  prevAfter : Option ℚ
deriving DecidableEq, Repr

/-- Gate 1 of `Schedule.run`:
`self._from_time is None or self._from_time <= now.time() <= self._to_time`.
A missing `to_time` cannot satisfy the right half of the chained comparison. -/
def windowOk (cfg : SchedConfig) (now : Tick) : Bool :=
  match cfg.from_time with
  | none => true
  | some f =>
      decide (f ≤ now.tod) &&
        (match cfg.to_time with
         | some t => decide (now.tod ≤ t)
         | none => false)

/-- Gate 2 of `Schedule.run`:
`self.previous_call is None or (now >= self.previous_call + self._every)`. -/
def periodOk (cfg : SchedConfig) (prev : Option ℚ) (now : Tick) : Bool :=
  match prev with
  | none => true
  | some p => decide (p + cfg.every ≤ now.abs)

/-- Gate 3 of `Schedule.run`:
`self._week_days is None or now.weekday() in self._week_days`. -/
def weekdayOk (cfg : SchedConfig) (now : Tick) : Bool :=
  match cfg.week_days with
  | none => true
  | some ds => ds.contains now.weekday

/-- One iteration of the `while True` loop of `Schedule.run`
(`schedule/schedule.py`), faithful to the nesting of the three gates: the
time-of-day window is tested first, then the minimum period; once both pass,
`self.previous_call = now` is executed, and only then the weekday gate decides
whether `self.task()` runs (after which `previous_call` is assigned `now`
again). -/
def schedule_tick (cfg : SchedConfig) (prev : Option ℚ) (now : Tick) :
    TickOutcome :=
  if windowOk cfg now then
    if periodOk cfg prev now then
      if weekdayOk cfg now then
        { fired := true, prevAtBody := some now.abs, prevAfter := some now.abs }
      else
        { fired := false, prevAtBody := some now.abs, prevAfter := some now.abs }
    else { fired := false, prevAtBody := prev, prevAfter := prev }
  else { fired := false, prevAtBody := prev, prevAfter := prev }

/-! ### `Schedule.task` -/

/-- Outcome of one call to `Schedule.task`: the batch handed to
`self.connector.transfer` (if the call was reached), the exception logged by
the `except` clause (if any), and whether an exception escaped the method. -/
structure TaskOutcome (ε σ : Type) where
  transferCalledWith : Option (List σ)
  logged : Option ε
  crashed : Bool
deriving DecidableEq, Repr

/-- The `for person in Person.get_all_people()` loop body of `Schedule.task`:
build a `Session` per person and generate its questions.  The first exception
escapes the loop (the `try` block wraps the whole loop). -/
def build_sessions {ε σ : Type} (process : Person → Except ε σ) :
    List Person → Except ε (List σ)
  | [] => Except.ok []
  | p :: rest =>
    match process p with
    | Except.error e => Except.error e
    | Except.ok s =>
      match build_sessions process rest with
      | Except.error e => Except.error e
      | Except.ok ss => Except.ok (s :: ss)

/-- `Schedule.task` from `schedule/schedule.py`: a single `try` wraps the
whole per-person loop and the `transfer` call; any exception is logged via
`logging.error` and swallowed, so the loop thread never crashes, but the rest
of the cycle is abandoned.  `process` models building one person's session
(which may raise); `transferFails` models `self.connector.transfer` returning
`some e` when it raises `e`. -/
def schedule_task {ε σ : Type} (process : Person → Except ε σ)
    (transferFails : List σ → Option ε) (persons : List Person) :
    TaskOutcome ε σ :=
  match build_sessions process persons with
  | Except.error e =>
      { transferCalledWith := none, logged := some e, crashed := false }
  | Except.ok ss =>
      { transferCalledWith := some ss, logged := transferFails ss,
        crashed := false }

/-! ### Question generators (`schedule/generators.py`) -/

/-- Comparison key used by `order_by(AnswerRecord.ask_time)`: a NULL
`ask_time` sorts below every value. -/
def optLe : Option ℚ → Option ℚ → Bool
  | none, _ => true
  | some _, none => false
  | some a, some b => decide (a ≤ b)

/-- `ORDER BY ask_time` ascending, as a relation on rows. -/
def askLe (a b : AnswerRecord) : Prop := optLe a.ask_time b.ask_time = true

instance : DecidableRel askLe := fun a b => by
  unfold askLe; infer_instance

instance : IsTotal AnswerRecord askLe := by
  constructor
  intro a b
  unfold askLe optLe
  rcases a.ask_time with _ | x <;> rcases b.ask_time with _ | y <;> simp
  exact le_total x y

instance : IsTrans AnswerRecord askLe := by
  constructor
  intro a b c
  unfold askLe optLe
  rcases a.ask_time with _ | x <;> rcases b.ask_time with _ | y <;>
    rcases c.ask_time with _ | z <;> simp
  exact le_trans

/-- `GeneratorInterface._get_planned`: the person's answer records with state
`NOT_ANSWERED` and `ask_time <= now` (false for a NULL `ask_time`), ordered by
`ask_time` ascending. -/
def get_planned (db : List AnswerRecord) (now : ℚ) (person : Person) :
    List AnswerRecord :=
  List.insertionSort askLe
    (db.filter (fun a =>
      a.person_id == person.id &&
      (a.ask_time.any (fun t => decide (t ≤ now))) &&
      a.state == AnswerState.NOT_ANSWERED))

/-- `GeneratorInterface._get_person_questions`: questions having at least one
group among the person's group memberships (inner join on the association
table) whose id is not among the planned records' question ids, one row per
question id. -/
def get_person_questions (questions : List Question) (person : Person)
    (planned : List AnswerRecord) : List Question :=
  questions.filter (fun q =>
    (q.groups.any (fun g => person.groups.any (fun pg => pg.1 == g))) &&
    !(planned.any (fun qa => qa.question_id == q.id)))

/-- A deliverable unit returned by `next_bunch`: either an existing due
`AnswerRecord` or a freshly chosen bare `Question`. -/
inductive Item where
  | record (a : AnswerRecord)
  | fresh (q : Question)
deriving DecidableEq, Repr

/-- `SimpleRandomGenerator.next_bunch`.  `pick pool n` stands for
`np.random.choice(pool, size=n, replace=False)`; the size argument is
`min(count - len(planned), len(pool))` exactly as in the source. -/
def simple_next_bunch (pick : List Question → Nat → List Question)
    (questions : List Question) (db : List AnswerRecord) (now : ℚ)
    (person : Person) (count : Nat) : List Item :=
  let planned := get_planned db now person
  if count ≤ planned.length then (planned.take count).map Item.record
  else
    let pool := get_person_questions questions person planned
    planned.map Item.record ++
      (pick pool (min (count - planned.length) pool.length)).map Item.fresh

/-- The rows of the `answers` table for one person and one question, in
insertion order (the order an unordered `SELECT` returns them in). -/
def recordsFor (db : List AnswerRecord) (pid qid : Nat) : List AnswerRecord :=
  db.filter (fun a => a.person_id == pid && a.question_id == qid)

/-- `max(gl for pg, gl in person.groups if pg in [x.group_id for x in
question.groups])`: `none` models the `ValueError` that `max` raises on an
empty sequence. -/
def maxTargetLevel? (person : Person) (q : Question) : Option Int :=
  ((person.groups.filter (fun pg => q.groups.contains pg.1)).map
    (fun pg => pg.2)).max?

/-- The statistical weight of a seen question, line for line from the body of
the `if points_sum:` branch of `StatRandomGenerator.next_bunch`:
`p = (now - last_ask).total_seconds() / points_sum`, then
`p *= abs(cos(pi * log2(periods_count + 4))) ** (((periods_count + 4)**2)/20)
+ 0.001`, then `p *= exp(-0.5 * (max_target_level - level)**2)`.  Note that
the `+ 0.001` binds inside the second factor. -/
noncomputable def seen_weight (dt ps pc tl lvl : ℝ) : ℝ :=
  dt / ps *
    (|Real.cos (Real.pi * Real.logb 2 (pc + 4))| ^ ((pc + 4) ^ (2 : ℕ) / 20)
      + 0.001) *
    Real.exp (-0.5 * (tl - lvl) ^ (2 : ℕ))

/-- The weight formula as the specification text states it, with the small
constant added to the whole product:
`w = ((now - last_ask).seconds / points_sum) * |cos(pi * log2(ep + 4))| ^
(((ep + 4)^2)/20) * exp(-0.5 * (target_level - level)^2) + eps`. -/
noncomputable def spec_seen_weight (dt ps pc tl lvl : ℝ) : ℝ :=
  dt / ps *
    |Real.cos (Real.pi * Real.logb 2 (pc + 4))| ^ ((pc + 4) ^ (2 : ℕ) / 20) *
    Real.exp (-0.5 * (tl - lvl) ^ (2 : ℕ)) + 0.001

/-- Rows sorted by `order_by(AnswerRecord.ask_time.desc())`. -/
def sortByAskDesc (recs : List AnswerRecord) : List AnswerRecord :=
  List.insertionSort (fun a b => askLe b a) recs

/-- The probability assigned to one pool question by the loop of
`StatRandomGenerator.next_bunch`.  `none` models an exception escaping the
loop body (the `ValueError` of `max` on an empty group overlap, or datetime
arithmetic on a missing `ask_time`); `some none` models a NaN entry of the
`probabilities` array — either the unseen marker (`probabilities[i] = None`)
or a NaN computed weight; `some (some w)` is a finite computed weight.
`last_answer` is the first row ordered by `ask_time` descending,
`first_answer` the first row of the unordered select, and
`periods_count = (now - first_answer.ask_time) / time_period`.
When `periods_count + 4 < 0` (a pair whose first-inserted record is planned
more than 4 periods in the future), `np.log2` of the negative argument is
NaN, which propagates through the whole product — the later `np.isnan`
filter then treats the question exactly like an unseen one, hence the
`some none` guard.  At `periods_count + 4 = 0` numpy computes
`nan ** 0.0 = 1.0` for the oscillation power, which coincides with the
total-real model (`1 ^ 0 = 1` whatever the base), so no guard is needed
there.  A zero `time_period` would raise in Python; settings keep it
positive, and the model's division-by-zero junk value is never relied on. -/
noncomputable def question_prob (db : List AnswerRecord) (tp now : ℚ)
    (person : Person) (q : Question) : Option (Option ℝ) :=
  if ((recordsFor db person.id q.id).map (fun a => a.points)).sum = 0 then
    some none
  else
    match (sortByAskDesc (recordsFor db person.id q.id)).head?,
        (recordsFor db person.id q.id).head?, maxTargetLevel? person q with
    | some lastR, some firstR, some tl =>
      match lastR.ask_time, firstR.ask_time with
      | some lt, some ft =>
        if (now - ft) / tp + 4 < 0 then some none
        else
          some (some (seen_weight ((now : ℝ) - (lt : ℝ))
            ((((recordsFor db person.id q.id).map (fun a => a.points)).sum
              : ℚ) : ℝ)
            (((now : ℝ) - (ft : ℝ)) / (tp : ℝ)) (tl : ℝ) (q.level : ℝ)))
      | _, _ => none
    | _, _, _ => none

/-- Python `max` over a nonempty list of floats (the unreachable empty case
returns 0). -/
noncomputable def listMax : List ℝ → ℝ
  | [] => 0
  | x :: xs => xs.foldl max x

/-- The weight vector of `StatRandomGenerator.next_bunch` after the loop and
the NaN replacement, before normalization: `with_val` filters out the NaN
entries — modelled as the `none` entries of `probs0`, covering both unseen
questions and seen questions whose weight computed to NaN —
`increased_avg = (sum(with_val) + without_val_count * max(with_val)) /
len(person_questions)` (or `1` if `with_val` is empty), and every NaN entry
is overwritten with `increased_avg`.  The outer `none` models an exception
from the loop. -/
noncomputable def assigned_probs (db : List AnswerRecord) (tp now : ℚ)
    (person : Person) (pool : List Question) : Option (List ℝ) :=
  match pool.mapM (question_prob db tp now person) with
  | none => none
  | some probs0 =>
    let withVal := probs0.filterMap id
    let avg : ℝ :=
      if withVal.isEmpty then 1
      else (withVal.sum + ((pool.length - withVal.length : ℕ) : ℝ) *
        listMax withVal) / (pool.length : ℝ)
    some (probs0.map (fun p => p.getD avg))

/-- `StatRandomGenerator.next_bunch`.  `pick pool probs n` stands for
`np.random.choice(pool, p=probs, size=n, replace=False)` where `probs` is the
weight vector normalized to sum 1; `none` models an exception escaping the
call. -/
noncomputable def stat_next_bunch
    (pick : List Question → List ℝ → Nat → List Question)
    (questions : List Question) (db : List AnswerRecord) (tp now : ℚ)
    (person : Person) (count : Nat) : Option (List Item) :=
  let planned := get_planned db now person
  if count ≤ planned.length then some ((planned.take count).map Item.record)
  else
    let pool := get_person_questions questions person planned
    if pool.isEmpty then some ((planned.take count).map Item.record)
    else
      match assigned_probs db tp now person pool with
      | none => none
      | some probs =>
        some (planned.map Item.record ++
          (pick pool (probs.map (fun p => p / probs.sum))
            (min (count - planned.length) pool.length)).map Item.fresh)

/-- The question ids of the freshly selected questions among returned items. -/
def freshIds (items : List Item) : List Nat :=
  items.filterMap (fun it =>
    match it with
    | Item.fresh q => some q.id
    | Item.record _ => none)

/-- The question ids of the due answer records among returned items. -/
def dueQuestionIds (items : List Item) : List Nat :=
  items.filterMap (fun it =>
    match it with
    | Item.record a => some a.question_id
    | Item.fresh _ => none)

/-! ### Concrete fixtures used to evaluate the definitions -/

/-- A TEST question with canonical answer "a" in group 1. -/
def qTestA : Question := ⟨1, "a", [1], 0, QuestionType.TEST⟩

/-- An `ANSWERED` record for question 1 / person 1: answered "a" at time 5,
asked at time 4, scored 1. -/
def recAnswered : AnswerRecord :=
  ⟨1, 1, 1, some "a", some 5, some 4, AnswerState.ANSWERED, 1⟩

/-- A person in group 1 with target level 0. -/
def personOne : Person := ⟨1, [(1, 0)]⟩

/-- A due record for person 1, question 1, asked at time 1. -/
def dueRec1 : AnswerRecord :=
  ⟨1, 1, 1, none, none, some 1, AnswerState.NOT_ANSWERED, 0⟩

/-- A due record for person 1, question 2, asked at time 2. -/
def dueRec2 : AnswerRecord :=
  ⟨2, 2, 1, none, none, some 2, AnswerState.NOT_ANSWERED, 0⟩

/-- A person whose only membership (group 2, target level 5) does not
overlap group 1. -/
def personOffGroup : Person := ⟨1, [(2, 5)]⟩

/-- A second TEST question in group 1 that person 1 has never answered. -/
def qTestB : Question := ⟨2, "b", [1], 0, QuestionType.TEST⟩

/-- An `ANSWERED` record for question 1 / person 1 whose `ask_time` equals
the current instant used in the weighting fixtures (time 10). -/
def recJustNow : AnswerRecord :=
  ⟨1, 1, 1, some "a", some 10, some 10, AnswerState.ANSWERED, 1⟩

/-- An `ANSWERED` record for question 1 / person 1 asked at time 6 and
scored 1 — at `now = 10` with `time_period = 1` this realizes
`(now - last_ask) = 4` and `elapsed_periods = 4`, so `log2(ep + 4) = 3`. -/
def recSeen6 : AnswerRecord :=
  ⟨1, 1, 1, some "a", some 7, some 6, AnswerState.ANSWERED, 1⟩

/-- A deterministic stand-in for `np.random.choice(pool, p=probs, size=n,
replace=False)`: take the first `n` pool elements. -/
def takePickW : List Question → List ℝ → Nat → List Question :=
  fun l _ n => l.take n

/-- A deterministic stand-in for `np.random.choice(pool, size=n,
replace=False)`: take the first `n` pool elements. -/
def takePickU : List Question → Nat → List Question :=
  fun l n => l.take n

/-! ## Theorems -/

/-- Helper: the first exception in the per-person loop of `Schedule.task`
escapes `build_sessions`. -/
theorem build_sessions_error {ε σ : Type} (process : Person → Except ε σ)
    (pre rest : List Person) (p : Person) (e : ε)
    (hpre : ∀ q ∈ pre, ∃ s, process q = Except.ok s)
    (hp : process p = Except.error e) :
    build_sessions process (pre ++ p :: rest) = Except.error e := by
  induction pre with
  | nil => simp [build_sessions, hp]
  | cons a l ih =>
    obtain ⟨s, hs⟩ := hpre a (by simp)
    have := ih (fun q hq => hpre q (by simp [hq]))
    simp [build_sessions, hs, this]

/-- C1: `Session.register_answer` on a record whose persisted state is
already `ANSWERED` does not fail with a conflict: given any non-null raw
answer it silently overwrites `person_answer`, sets `answer_time = now`,
keeps `state = ANSWERED`, and recomputes `points` from the new raw answer
alone (the previous score is discarded). -/
theorem register_answer_overwrites_answered (questions : List Question)
    (db : List AnswerRecord) (now : ℚ) (recId : Nat) (r : AnswerRecord)
    (q : Question) (s : String)
    (hr : dbGet db recId = some r) (_hst : r.state = AnswerState.ANSWERED)
    (hq : questions.find? (fun q' => q'.id == r.question_id) = some q) :
    ∃ r1, register_answer questions db now recId (some s)
        = some (dbUpdate db r1, r1) ∧
      r1.person_answer = some s ∧
      r1.answer_time = some now ∧
      r1.state = AnswerState.ANSWERED ∧
      (q.qtype = QuestionType.TEST →
        r1.points = if s = q.answer then 1 else 0) ∧
      (q.qtype = QuestionType.OPEN → r1.points = 0) := by
  refine ⟨calculate_points q
    { r with person_answer := some s, state := AnswerState.ANSWERED,
             answer_time := some now }, ?_, ?_, ?_, ?_, ?_, ?_⟩
  · unfold register_answer
    rw [hr]
    simp only [hq]
  · rcases hty : q.qtype <;> simp [calculate_points, hty, apply_ite]
  · rcases hty : q.qtype <;> simp [calculate_points, hty, apply_ite]
  · rcases hty : q.qtype <;> simp [calculate_points, hty, apply_ite]
  · intro hty
    simp only [calculate_points, hty]
    by_cases hsa : s = q.answer <;> simp [hsa]
  · intro hty
    simp [calculate_points, hty]

/-- C1 witness: concrete instance of the overwrite theorem; the hypotheses
are evaluated on a one-question, one-record database. -/
theorem register_answer_overwrites_answered_witness :
    (dbGet [recAnswered] 1 = some recAnswered) ∧
    (recAnswered.state = AnswerState.ANSWERED) ∧
    ([qTestA].find? (fun q' => q'.id == recAnswered.question_id)
        = some qTestA) ∧
    (∃ r1, register_answer [qTestA] [recAnswered] 9 1 (some "b")
        = some (dbUpdate [recAnswered] r1, r1) ∧
      r1.person_answer = some "b" ∧
      r1.answer_time = some 9 ∧
      r1.state = AnswerState.ANSWERED ∧
      (qTestA.qtype = QuestionType.TEST →
        r1.points = if "b" = qTestA.answer then 1 else 0) ∧
      (qTestA.qtype = QuestionType.OPEN → r1.points = 0)) :=
  ⟨by decide, by decide, by decide,
    register_answer_overwrites_answered [qTestA] [recAnswered] 9 1
      recAnswered qTestA "b" (by decide) (by decide) (by decide)⟩

/-- C1 counterexample: a TEST record answered correctly (points 1) is
re-registered with a different raw answer; the call succeeds instead of
failing with a conflict, and points, person_answer, answer_time are all
overwritten (points drop from 1 to 0). -/
theorem register_answer_conflict_counterexample :
    (register_answer [qTestA] [recAnswered] 9 1 (some "b")).map
        (fun x => (x.2.points, x.2.person_answer, x.2.answer_time, x.2.state))
      = some (0, some "b", some 9, AnswerState.ANSWERED) := by decide

/-- C2: `Session.mark_question_as_transferred` sets the state to
`TRANSFERRED` unconditionally, whatever the current state is — including an
`ANSWERED` record, whose state therefore regresses — and backfills `ask_time`
with `now` exactly when it is unset; all other fields are preserved. -/
theorem mark_transferred_unconditional (db : List AnswerRecord) (now : ℚ)
    (recId : Nat) (r : AnswerRecord) (hr : dbGet db recId = some r) :
    ∃ r2, mark_question_as_transferred db now recId = some (dbUpdate db r2) ∧
      r2.state = AnswerState.TRANSFERRED ∧
      r2.ask_time = (if r.ask_time = none then some now else r.ask_time) ∧
      r2.id = r.id ∧ r2.question_id = r.question_id ∧
      r2.person_id = r.person_id ∧ r2.person_answer = r.person_answer ∧
      r2.answer_time = r.answer_time ∧ r2.points = r.points := by
  refine ⟨{ r with
              state := AnswerState.TRANSFERRED,
              ask_time := (if r.ask_time = none then some now
                           else r.ask_time) },
    ?_, rfl, rfl, rfl, rfl, rfl, rfl, rfl, rfl⟩
  unfold mark_question_as_transferred
  rw [hr]
  rcases ht : r.ask_time with _ | t <;> simp [ht]

/-- C2 witness: concrete instance on a one-record database holding an
`ANSWERED` record with a set `ask_time`. -/
theorem mark_transferred_unconditional_witness :
    (dbGet [recAnswered] 1 = some recAnswered) ∧
    (∃ r2, mark_question_as_transferred [recAnswered] 9 1
        = some (dbUpdate [recAnswered] r2) ∧
      r2.state = AnswerState.TRANSFERRED ∧
      r2.ask_time
        = (if recAnswered.ask_time = none then some 9
           else recAnswered.ask_time) ∧
      r2.id = recAnswered.id ∧ r2.question_id = recAnswered.question_id ∧
      r2.person_id = recAnswered.person_id ∧
      r2.person_answer = recAnswered.person_answer ∧
      r2.answer_time = recAnswered.answer_time ∧
      r2.points = recAnswered.points) :=
  ⟨by decide,
    mark_transferred_unconditional [recAnswered] 9 1 recAnswered (by decide)⟩

/-- C2 counterexample: marking an `ANSWERED` record as transferred moves its
state back to `TRANSFERRED`, so the state machine does regress
`ANSWERED → TRANSFERRED`. -/
theorem mark_transferred_regression_counterexample :
    (mark_question_as_transferred [recAnswered] 9 1).map
        (fun l => l.map (fun x => x.state))
      = some [AnswerState.TRANSFERRED] := by decide

/-- C3 (amended): one dispatcher tick fires exactly when the time-of-day
window, the minimum-period gate and the weekday gate all pass (so a tick on a
disallowed weekday never fires), and on firing `previous_call` is already
`now` when the cycle body starts; however `previous_call` is set to `now`
whenever the window and period gates pass — also when the weekday gate then
fails and no cycle fires — and is left untouched only when the window or
period gate fails. -/
theorem schedule_tick_gating (cfg : SchedConfig) (prev : Option ℚ)
    (now : Tick) :
    ((schedule_tick cfg prev now).fired
        = (windowOk cfg now && periodOk cfg prev now && weekdayOk cfg now)) ∧
    ((schedule_tick cfg prev now).fired = true →
      (schedule_tick cfg prev now).prevAtBody = some now.abs ∧
      (schedule_tick cfg prev now).prevAfter = some now.abs) ∧
    ((windowOk cfg now && periodOk cfg prev now) = true →
      (schedule_tick cfg prev now).prevAfter = some now.abs) ∧
    ((windowOk cfg now && periodOk cfg prev now) = false →
      (schedule_tick cfg prev now).prevAfter = prev ∧
      (schedule_tick cfg prev now).prevAtBody = prev) ∧
    (weekdayOk cfg now = false → (schedule_tick cfg prev now).fired = false) := by
  unfold schedule_tick
  cases hw : windowOk cfg now <;> cases hp : periodOk cfg prev now <;>
    cases hd : weekdayOk cfg now <;> simp [hw, hp, hd]

/-- C3 witness: with no weekday or window restriction and no prior cycle, the
window and period gates pass and `previous_call` ends up set to `now`. -/
theorem schedule_tick_gating_witness :
    ((windowOk ⟨30, none, none, none⟩ ⟨100, 0, 5⟩ &&
        periodOk ⟨30, none, none, none⟩ none ⟨100, 0, 5⟩) = true) ∧
    (schedule_tick ⟨30, none, none, none⟩ none ⟨100, 0, 5⟩).prevAfter
      = some (⟨100, 0, 5⟩ : Tick).abs :=
  ⟨by decide,
    (schedule_tick_gating ⟨30, none, none, none⟩ none ⟨100, 0, 5⟩).2.2.1
      (by decide)⟩

/-- C3 counterexample: weekday set `{Monday}`, tick on weekday 5 with no
prior cycle — the cycle does not fire, yet `previous_call` is set to `now`,
so `previous_cycle_time` is not updated "exactly when a cycle fires". -/
theorem schedule_tick_counterexample :
    (schedule_tick ⟨30, some [0], none, none⟩ none ⟨100, 0, 5⟩).fired = false ∧
    (schedule_tick ⟨30, some [0], none, none⟩ none ⟨100, 0, 5⟩).prevAfter
      = some 100 := by decide

/-- C10: when the time-of-day window and the minimum-period gate pass but the
weekday gate fails, the tick does not run the cycle body, yet `previous_call`
is still set to `now`; consequently no later tick can fire until a further
full period has elapsed from this skipped tick. -/
theorem skipped_weekday_consumes_period (cfg : SchedConfig) (prev : Option ℚ)
    (now : Tick)
    (hw : windowOk cfg now = true) (hp : periodOk cfg prev now = true)
    (hd : weekdayOk cfg now = false) :
    (schedule_tick cfg prev now).fired = false ∧
    (schedule_tick cfg prev now).prevAfter = some now.abs ∧
    ∀ now2 : Tick, now2.abs < now.abs + cfg.every →
      (schedule_tick cfg (schedule_tick cfg prev now).prevAfter now2).fired
        = false := by
  have h1 : schedule_tick cfg prev now =
      { fired := false, prevAtBody := some now.abs,
        prevAfter := some now.abs } := by
    unfold schedule_tick
    simp [hw, hp, hd]
  refine ⟨by rw [h1], by rw [h1], ?_⟩
  intro now2 hlt
  have hp2 : periodOk cfg (some now.abs) now2 = false := by
    unfold periodOk
    simp
    linarith
  rw [h1]
  unfold schedule_tick
  cases hw2 : windowOk cfg now2 <;> simp [hw2, hp2]

/-- C10 witness: concrete tick on weekday 5 with allowed set `{0}`, period
30, no prior cycle; the hypotheses hold and the theorem applies. -/
theorem skipped_weekday_consumes_period_witness :
    (windowOk ⟨30, some [0], none, none⟩ ⟨100, 0, 5⟩ = true) ∧
    (periodOk ⟨30, some [0], none, none⟩ none ⟨100, 0, 5⟩ = true) ∧
    (weekdayOk ⟨30, some [0], none, none⟩ ⟨100, 0, 5⟩ = false) ∧
    ((schedule_tick ⟨30, some [0], none, none⟩ none ⟨100, 0, 5⟩).fired = false ∧
      (schedule_tick ⟨30, some [0], none, none⟩ none ⟨100, 0, 5⟩).prevAfter
        = some (⟨100, 0, 5⟩ : Tick).abs ∧
      ∀ now2 : Tick, now2.abs < (⟨100, 0, 5⟩ : Tick).abs + (30 : ℚ) →
        (schedule_tick ⟨30, some [0], none, none⟩
          (schedule_tick ⟨30, some [0], none, none⟩ none
            ⟨100, 0, 5⟩).prevAfter now2).fired = false) :=
  ⟨by decide, by decide, by decide,
    skipped_weekday_consumes_period ⟨30, some [0], none, none⟩ none ⟨100, 0, 5⟩
      (by decide) (by decide) (by decide)⟩

/-- C4 (amended): `Schedule.task` wraps the whole per-person loop in a single
`try`: the first exception raised while processing one person is caught and
logged and never crashes the loop thread, but it abandons the rest of the
cycle — none of the remaining persons is processed and the transfer call
never happens. -/
theorem task_exception_aborts_cycle {ε σ : Type}
    (process : Person → Except ε σ) (tf : List σ → Option ε)
    (pre rest : List Person) (p : Person) (e : ε)
    (hpre : ∀ q ∈ pre, ∃ s, process q = Except.ok s)
    (hp : process p = Except.error e) :
    schedule_task process tf (pre ++ p :: rest) =
      { transferCalledWith := none, logged := some e, crashed := false } ∧
    ∀ persons : List Person, (schedule_task process tf persons).crashed
      = false := by
  constructor
  · unfold schedule_task
    rw [build_sessions_error process pre rest p e hpre hp]
  · intro persons
    unfold schedule_task
    cases h : build_sessions process persons <;> simp

/-- C4 witness: two persons, processing the first raises; the cycle logs the
error, calls no transfer, and the loop survives. -/
theorem task_exception_aborts_cycle_witness :
    (∀ q ∈ ([] : List Person),
      ∃ s, (fun p : Person =>
        if p.id == 1 then (Except.error () : Except Unit Nat)
        else Except.ok p.id) q = Except.ok s) ∧
    ((fun p : Person =>
        if p.id == 1 then (Except.error () : Except Unit Nat)
        else Except.ok p.id) ⟨1, []⟩ = Except.error ()) ∧
    (schedule_task
        (fun p : Person =>
          if p.id == 1 then (Except.error () : Except Unit Nat)
          else Except.ok p.id)
        (fun _ => none) ([] ++ ⟨1, []⟩ :: [⟨2, []⟩]) =
      { transferCalledWith := none, logged := some (), crashed := false } ∧
    ∀ persons : List Person,
      (schedule_task
        (fun p : Person =>
          if p.id == 1 then (Except.error () : Except Unit Nat)
          else Except.ok p.id)
        (fun _ => none) persons).crashed = false) :=
  ⟨by simp, rfl,
    task_exception_aborts_cycle
      (fun p : Person =>
        if p.id == 1 then (Except.error () : Except Unit Nat)
        else Except.ok p.id)
      (fun _ => none) [] [⟨2, []⟩] ⟨1, []⟩ () (by simp) rfl⟩

/-- C4 counterexample: persons `[1, 2]`, processing person 1 raises while
person 2 would succeed; the whole cycle is abandoned (no transfer call), so
the remaining person is not processed — only the loop thread survives. -/
theorem task_exception_counterexample :
    (schedule_task
        (fun p : Person =>
          if p.id == 1 then (Except.error () : Except Unit Nat)
          else Except.ok p.id)
        (fun _ => none) [⟨1, []⟩, ⟨2, []⟩] =
      { transferCalledWith := none, logged := some (), crashed := false }) ∧
    (schedule_task
        (fun p : Person =>
          if p.id == 1 then (Except.error () : Except Unit Nat)
          else Except.ok p.id)
        (fun _ => none) [⟨2, []⟩] =
      { transferCalledWith := some [2], logged := none, crashed := false }) := by
  decide

/-- Helper: both take-based stand-ins satisfy the contract of
`np.random.choice(..., replace=False)`: when asked for `n ≤ |pool|`
elements they return exactly `n` elements of the pool. -/
theorem take_pick_spec (l : List Question) (n : Nat) (hn : n ≤ l.length) :
    (l.take n).length = n ∧ ∀ x ∈ l.take n, x ∈ l :=
  ⟨by simp [List.length_take, Nat.min_eq_left hn],
    fun _ hx => List.mem_of_mem_take hx⟩

/-- Helper: a question of the eligible pool never shares its id with a
planned (due) record — the pool query excludes those ids. -/
theorem pool_id_not_planned (questions : List Question) (person : Person)
    (planned : List AnswerRecord) (q : Question)
    (hq : q ∈ get_person_questions questions person planned) :
    ∀ a ∈ planned, a.question_id ≠ q.id := by
  intro a ha
  unfold get_person_questions at hq
  rw [List.mem_filter] at hq
  have h2 := hq.2
  simp only [Bool.and_eq_true, Bool.not_eq_true', List.any_eq_false,
    beq_iff_eq] at h2
  exact h2.2 a ha

/-- Helper: filtering with a constantly-`none` function drops everything. -/
theorem filterMap_const_none {α β : Type} (l : List α) :
    l.filterMap (fun _ => (none : Option β)) = [] := by
  induction l with
  | nil => rfl
  | cons a t ih => simp [List.filterMap_cons, ih]

/-- Helper: filtering with a constantly-`some` function is a map. -/
theorem filterMap_some_comp {α β : Type} (f : α → β) (l : List α) :
    l.filterMap (fun x => some (f x)) = l.map f := by
  induction l with
  | nil => rfl
  | cons a t ih => simp [List.filterMap_cons, ih]

/-- Helper: fresh/due question ids of a `planned ++ picks` result list. -/
theorem freshIds_dueIds_append (planned : List AnswerRecord)
    (picks : List Question) :
    freshIds (planned.map Item.record ++ picks.map Item.fresh)
      = picks.map (fun q => q.id) ∧
    dueQuestionIds (planned.map Item.record ++ picks.map Item.fresh)
      = planned.map (fun a => a.question_id) := by
  unfold freshIds dueQuestionIds
  constructor <;>
    simp [List.filterMap_append, List.filterMap_map, Function.comp_def,
      filterMap_const_none, filterMap_some_comp]

/-- Helper: a list of due records only contains no fresh ids. -/
theorem freshIds_record_nil (planned : List AnswerRecord) :
    freshIds (planned.map Item.record) = [] := by
  unfold freshIds
  simp [List.filterMap_map, Function.comp_def, filterMap_const_none]

/-- C8: for both generator variants, whenever the number of due records is at
least `count`, `next_bunch` returns exactly the first `count` due records —
the due list being the person's NOT_ANSWERED records with `ask_time ≤ now`
sorted by `ask_time` ascending — for every possible random selector, i.e. no
fresh question selection takes place. -/
theorem next_bunch_due_prefix
    (pickS : List Question → List ℝ → Nat → List Question)
    (pickU : List Question → Nat → List Question)
    (questions : List Question) (db : List AnswerRecord) (tp now : ℚ)
    (person : Person) (count : Nat)
    (h : count ≤ (get_planned db now person).length) :
    stat_next_bunch pickS questions db tp now person count
      = some (((get_planned db now person).take count).map Item.record) ∧
    simple_next_bunch pickU questions db now person count
      = ((get_planned db now person).take count).map Item.record ∧
    List.Sorted askLe (get_planned db now person) ∧
    (get_planned db now person).Perm
      (db.filter (fun a =>
        a.person_id == person.id &&
        (a.ask_time.any (fun t => decide (t ≤ now))) &&
        a.state == AnswerState.NOT_ANSWERED)) ∧
    (∀ a ∈ (get_planned db now person).take count,
      a.person_id = person.id ∧ a.state = AnswerState.NOT_ANSWERED ∧
      ∃ t, a.ask_time = some t ∧ t ≤ now) := by
  refine ⟨?_, ?_, ?_, ?_, ?_⟩
  · unfold stat_next_bunch
    rw [if_pos h]
  · unfold simple_next_bunch
    rw [if_pos h]
  · exact List.sorted_insertionSort askLe _
  · exact List.perm_insertionSort askLe _
  · intro a ha
    have hmem : a ∈ get_planned db now person := List.mem_of_mem_take ha
    have hfilter : a ∈ db.filter (fun a =>
        a.person_id == person.id &&
        (a.ask_time.any (fun t => decide (t ≤ now))) &&
        a.state == AnswerState.NOT_ANSWERED) :=
      (List.perm_insertionSort askLe _).mem_iff.mp hmem
    rw [List.mem_filter] at hfilter
    have h2 := hfilter.2
    simp only [Bool.and_eq_true, beq_iff_eq] at h2
    refine ⟨h2.1.1, h2.2, ?_⟩
    rcases ht : a.ask_time with _ | t
    · rw [ht] at h2
      simp [Option.any] at h2
    · rw [ht] at h2
      refine ⟨t, rfl, ?_⟩
      have := h2.1.2
      simp [Option.any] at this
      exact this

/-- C8 witness: two due records for person 1 (ask times 1 and 2, both before
`now = 10`), `count = 1`: the theorem applies with the take-based selectors. -/
theorem next_bunch_due_prefix_witness :
    (1 ≤ (get_planned [dueRec1, dueRec2] 10 personOne).length) ∧
    (stat_next_bunch takePickW [qTestA] [dueRec1, dueRec2] 1 10 personOne 1
      = some (((get_planned [dueRec1, dueRec2] 10 personOne).take 1).map
          Item.record) ∧
    simple_next_bunch takePickU [qTestA] [dueRec1, dueRec2] 10 personOne 1
      = ((get_planned [dueRec1, dueRec2] 10 personOne).take 1).map
          Item.record ∧
    List.Sorted askLe (get_planned [dueRec1, dueRec2] 10 personOne) ∧
    (get_planned [dueRec1, dueRec2] 10 personOne).Perm
      ([dueRec1, dueRec2].filter (fun a =>
        a.person_id == personOne.id &&
        (a.ask_time.any (fun t => decide (t ≤ (10 : ℚ)))) &&
        a.state == AnswerState.NOT_ANSWERED)) ∧
    (∀ a ∈ (get_planned [dueRec1, dueRec2] 10 personOne).take 1,
      a.person_id = personOne.id ∧ a.state = AnswerState.NOT_ANSWERED ∧
      ∃ t, a.ask_time = some t ∧ t ≤ (10 : ℚ))) :=
  ⟨by decide,
    next_bunch_due_prefix takePickW takePickU [qTestA] [dueRec1, dueRec2]
      1 10 personOne 1 (by decide)⟩

/-- C9: for both generator variants and every selector satisfying the
`np.random.choice(..., replace=False)` contract, `next_bunch` returns at most
`count` items, and no freshly selected question in the result shares its
question id with any due record in the result. -/
theorem next_bunch_bounded_no_dupe
    (pickS : List Question → List ℝ → Nat → List Question)
    (pickU : List Question → Nat → List Question)
    (questions : List Question) (db : List AnswerRecord) (tp now : ℚ)
    (person : Person) (count : Nat)
    (hS : ∀ l p n, n ≤ l.length →
      (pickS l p n).length = n ∧ ∀ x ∈ pickS l p n, x ∈ l)
    (hU : ∀ l n, n ≤ l.length →
      (pickU l n).length = n ∧ ∀ x ∈ pickU l n, x ∈ l) :
    (∀ items,
      stat_next_bunch pickS questions db tp now person count = some items →
      items.length ≤ count ∧
      ∀ i ∈ freshIds items, i ∉ dueQuestionIds items) ∧
    ((simple_next_bunch pickU questions db now person count).length ≤ count ∧
      ∀ i ∈ freshIds (simple_next_bunch pickU questions db now person count),
        i ∉ dueQuestionIds
          (simple_next_bunch pickU questions db now person count)) := by
  have main : ∀ (planned : List AnswerRecord) (picks : List Question),
      (∀ x ∈ picks, x ∈ get_person_questions questions person planned) →
      ∀ i ∈ freshIds (planned.map Item.record ++ picks.map Item.fresh),
        i ∉ dueQuestionIds (planned.map Item.record ++ picks.map Item.fresh) := by
    intro planned picks hpicks i hi hidue
    rw [(freshIds_dueIds_append planned picks).1] at hi
    rw [(freshIds_dueIds_append planned picks).2] at hidue
    rw [List.mem_map] at hi hidue
    obtain ⟨q, hqmem, hqi⟩ := hi
    obtain ⟨a, hamem, hai⟩ := hidue
    exact pool_id_not_planned questions person planned q (hpicks q hqmem)
      a hamem (by rw [hai, hqi])
  constructor
  · intro items hitems
    unfold stat_next_bunch at hitems
    by_cases h1 : count ≤ (get_planned db now person).length
    · rw [if_pos h1] at hitems
      obtain rfl := (Option.some_inj.mp hitems).symm
      constructor
      · simp [List.length_take]
      · intro i hi
        rw [freshIds_record_nil] at hi
        exact absurd hi (List.not_mem_nil i)
    · rw [if_neg h1] at hitems
      by_cases h2 : (get_person_questions questions person
          (get_planned db now person)).isEmpty
      · rw [if_pos h2] at hitems
        obtain rfl := (Option.some_inj.mp hitems).symm
        constructor
        · simp [List.length_take]
        · intro i hi
          rw [freshIds_record_nil] at hi
          exact absurd hi (List.not_mem_nil i)
      · rw [if_neg h2] at hitems
        rcases hap : assigned_probs db tp now person
            (get_person_questions questions person
              (get_planned db now person)) with _ | probs
        · rw [hap] at hitems
          exact absurd hitems (by simp)
        · rw [hap] at hitems
          obtain rfl := (Option.some_inj.mp hitems).symm
          have hmin : min (count - (get_planned db now person).length)
                (get_person_questions questions person
                  (get_planned db now person)).length
              ≤ (get_person_questions questions person
                  (get_planned db now person)).length :=
            Nat.min_le_right _ _
          have hpick := hS (get_person_questions questions person
              (get_planned db now person))
            (probs.map (fun p => p / probs.sum))
            (min (count - (get_planned db now person).length)
              (get_person_questions questions person
                (get_planned db now person)).length) hmin
          constructor
          · rw [List.length_append, List.length_map, List.length_map,
              hpick.1]
            have hlt : (get_planned db now person).length < count :=
              Nat.lt_of_not_le h1
            omega
          · exact main _ _ hpick.2
  · unfold simple_next_bunch
    by_cases h1 : count ≤ (get_planned db now person).length
    · rw [if_pos h1]
      constructor
      · simp [List.length_take]
      · intro i hi
        rw [freshIds_record_nil] at hi
        exact absurd hi (List.not_mem_nil i)
    · rw [if_neg h1]
      have hmin : min (count - (get_planned db now person).length)
            (get_person_questions questions person
              (get_planned db now person)).length
          ≤ (get_person_questions questions person
              (get_planned db now person)).length :=
        Nat.min_le_right _ _
      have hpick := hU (get_person_questions questions person
          (get_planned db now person))
        (min (count - (get_planned db now person).length)
          (get_person_questions questions person
            (get_planned db now person)).length) hmin
      constructor
      · rw [List.length_append, List.length_map, List.length_map, hpick.1]
        have hlt : (get_planned db now person).length < count :=
          Nat.lt_of_not_le h1
        omega
      · exact main _ _ hpick.2

/-- C9 witness: concrete instance with the take-based selectors (which
satisfy the contract), one due record and one eligible question. -/
theorem next_bunch_bounded_no_dupe_witness :
    (∀ l p n, n ≤ l.length →
      (takePickW l p n).length = n ∧ ∀ x ∈ takePickW l p n, x ∈ l) ∧
    (∀ l n, n ≤ l.length →
      (takePickU l n).length = n ∧ ∀ x ∈ takePickU l n, x ∈ l) ∧
    ((∀ items,
      stat_next_bunch takePickW [qTestA] [dueRec2] 1 10 personOne 2
        = some items →
      items.length ≤ 2 ∧
      ∀ i ∈ freshIds items, i ∉ dueQuestionIds items) ∧
    ((simple_next_bunch takePickU [qTestA] [dueRec2] 10 personOne 2).length
        ≤ 2 ∧
      ∀ i ∈ freshIds (simple_next_bunch takePickU [qTestA] [dueRec2] 10
          personOne 2),
        i ∉ dueQuestionIds (simple_next_bunch takePickU [qTestA] [dueRec2] 10
          personOne 2))) :=
  ⟨fun l _ n hn => take_pick_spec l n hn,
    fun l n hn => take_pick_spec l n hn,
    next_bunch_bounded_no_dupe takePickW takePickU [qTestA] [dueRec2]
      1 10 personOne 2
      (fun l _ n hn => take_pick_spec l n hn)
      (fun l n hn => take_pick_spec l n hn)⟩

/-- Helper: the weight computed for one seen question, in closed form: once
the points sum is nonzero and the last/first rows, their ask times, and the
maximal target level are identified, `question_prob` is the NaN guard over
the `seen_weight` formula. -/
theorem question_prob_reduce (db : List AnswerRecord) (tp now : ℚ)
    (person : Person) (q : Question) (lastR firstR : AnswerRecord)
    (lt ft : ℚ) (tl : Int)
    (hps : ((recordsFor db person.id q.id).map (fun a => a.points)).sum ≠ 0)
    (hlast : (sortByAskDesc (recordsFor db person.id q.id)).head?
      = some lastR)
    (hfirst : (recordsFor db person.id q.id).head? = some firstR)
    (hlt : lastR.ask_time = some lt) (hft : firstR.ask_time = some ft)
    (htl : maxTargetLevel? person q = some tl) :
    question_prob db tp now person q
      = (if (now - ft) / tp + 4 < 0 then some none
         else some (some (seen_weight ((now : ℝ) - (lt : ℝ))
           ((((recordsFor db person.id q.id).map (fun a => a.points)).sum
             : ℚ) : ℝ)
           (((now : ℝ) - (ft : ℝ)) / (tp : ℝ)) (tl : ℝ) (q.level : ℝ)))) := by
  unfold question_prob
  rw [if_neg hps]
  simp only [hlast, hfirst, htl, hlt, hft]

/-- C5 (amended): for every seen pool question (nonzero points sum, group
overlap present, ask times set), as long as `elapsed_periods + 4` is not
negative, the weight computed by `StatRandomGenerator.next_bunch` equals
`((now - last_ask).total_seconds()/points_sum) *
(|cos(pi*log2(ep + 4))| ^ (((ep+4)^2)/20) + eps) *
exp(-0.5*(target_level - level)^2)` with `ep = (now - first_ask) /
time_period`: the small constant `eps = 0.001` is added to the oscillation
factor before multiplying, not to the whole product.  When
`elapsed_periods + 4 < 0` (first record planned more than four periods in
the future), `np.log2` yields NaN, the weight is NaN, and the question is
reclassified as unseen by the `isnan` filter. -/
theorem question_prob_seen_form (db : List AnswerRecord) (tp now : ℚ)
    (person : Person) (q : Question) (lastR firstR : AnswerRecord)
    (lt ft : ℚ) (tl : Int)
    (hps : ((recordsFor db person.id q.id).map (fun a => a.points)).sum ≠ 0)
    (hlast : (sortByAskDesc (recordsFor db person.id q.id)).head?
      = some lastR)
    (hfirst : (recordsFor db person.id q.id).head? = some firstR)
    (hlt : lastR.ask_time = some lt) (hft : firstR.ask_time = some ft)
    (htl : maxTargetLevel? person q = some tl) :
    ((now - ft) / tp + 4 < 0 →
      question_prob db tp now person q = some none) ∧
    (¬((now - ft) / tp + 4 < 0) →
      question_prob db tp now person q
        = some (some (
            ((now : ℝ) - (lt : ℝ))
              / ((((recordsFor db person.id q.id).map
                  (fun a => a.points)).sum : ℚ) : ℝ)
            * (|Real.cos (Real.pi * Real.logb 2
                  (((now : ℝ) - (ft : ℝ)) / (tp : ℝ) + 4))|
                ^ ((((now : ℝ) - (ft : ℝ)) / (tp : ℝ) + 4) ^ (2 : ℕ) / 20)
                + 0.001)
            * Real.exp (-0.5 * ((tl : ℝ) - (q.level : ℝ)) ^ (2 : ℕ))))) := by
  rw [question_prob_reduce db tp now person q lastR firstR lt ft tl
    hps hlast hfirst hlt hft htl]
  constructor
  · intro hpc
    rw [if_pos hpc]
  · intro hpc
    rw [if_neg hpc]
    rfl

/-- C5 witness: one answered record (points 1, asked at time 4) for person 1
and question 1, evaluated at `now = 10` with `time_period = 1`
(`elapsed_periods + 4 = 10 ≥ 0`, so the formula branch applies). -/
theorem question_prob_seen_form_witness :
    (((recordsFor [recAnswered] personOne.id qTestA.id).map
        (fun a => a.points)).sum ≠ 0) ∧
    ((sortByAskDesc (recordsFor [recAnswered] personOne.id qTestA.id)).head?
      = some recAnswered) ∧
    ((recordsFor [recAnswered] personOne.id qTestA.id).head?
      = some recAnswered) ∧
    (recAnswered.ask_time = some 4) ∧
    (maxTargetLevel? personOne qTestA = some 0) ∧
    (¬(((10 : ℚ) - 4) / 1 + 4 < 0)) ∧
    (question_prob [recAnswered] 1 10 personOne qTestA
      = some (some (
          (((10 : ℚ) : ℝ) - ((4 : ℚ) : ℝ))
            / ((((recordsFor [recAnswered] personOne.id qTestA.id).map
                (fun a => a.points)).sum : ℚ) : ℝ)
          * (|Real.cos (Real.pi * Real.logb 2
                ((((10 : ℚ) : ℝ) - ((4 : ℚ) : ℝ)) / ((1 : ℚ) : ℝ) + 4))|
              ^ (((((10 : ℚ) : ℝ) - ((4 : ℚ) : ℝ)) / ((1 : ℚ) : ℝ) + 4)
                  ^ (2 : ℕ) / 20)
              + 0.001)
          * Real.exp (-0.5 * (((0 : ℤ) : ℝ) - (qTestA.level : ℝ))
              ^ (2 : ℕ))))) :=
  ⟨by simp [recordsFor, recAnswered, personOne, qTestA],
    by decide, by decide, by decide, by decide, by norm_num,
    (question_prob_seen_form [recAnswered] 1 10 personOne qTestA
      recAnswered recAnswered 4 4 0
      (by simp [recordsFor, recAnswered, personOne, qTestA])
      (by decide) (by decide) (by decide) (by decide) (by decide)).2
      (by norm_num)⟩

/-- C5 counterexample, at a realizable database: one record for the pair,
asked at time 6, scored 1, evaluated at `now = 10` with `time_period = 1` —
so `(now - last_ask) = 4` and `elapsed_periods = (now - first_ask)/period
= 4` (consistent: `last_ask = first_ask`).  Then `log2(ep + 4) = 3`,
`|cos(3*pi)| = 1`, and with `target_level = level` the program computes
`4 * (1 + 0.001) * 1 = 4.004` while the claimed formula (epsilon added to
the whole product) gives `4 * 1 * 1 + 0.001 = 4.001`. -/
theorem seen_weight_eps_counterexample :
    (question_prob [recSeen6] 1 10 personOne qTestA
      = some (some (seen_weight (((10 : ℚ) : ℝ) - ((6 : ℚ) : ℝ))
          ((((recordsFor [recSeen6] personOne.id qTestA.id).map
              (fun a => a.points)).sum : ℚ) : ℝ)
          ((((10 : ℚ) : ℝ) - ((6 : ℚ) : ℝ)) / ((1 : ℚ) : ℝ))
          (((0 : ℤ)) : ℝ) ((qTestA.level : ℤ) : ℝ)))) ∧
    seen_weight (((10 : ℚ) : ℝ) - ((6 : ℚ) : ℝ))
        ((((recordsFor [recSeen6] personOne.id qTestA.id).map
            (fun a => a.points)).sum : ℚ) : ℝ)
        ((((10 : ℚ) : ℝ) - ((6 : ℚ) : ℝ)) / ((1 : ℚ) : ℝ))
        (((0 : ℤ)) : ℝ) ((qTestA.level : ℤ) : ℝ)
      ≠ spec_seen_weight (((10 : ℚ) : ℝ) - ((6 : ℚ) : ℝ))
        ((((recordsFor [recSeen6] personOne.id qTestA.id).map
            (fun a => a.points)).sum : ℚ) : ℝ)
        ((((10 : ℚ) : ℝ) - ((6 : ℚ) : ℝ)) / ((1 : ℚ) : ℝ))
        (((0 : ℤ)) : ℝ) ((qTestA.level : ℤ) : ℝ) := by
  constructor
  · rw [question_prob_reduce [recSeen6] 1 10 personOne qTestA
      recSeen6 recSeen6 6 6 0
      (by simp [recordsFor, recSeen6, personOne, qTestA])
      (by decide) (by decide) (by decide) (by decide) (by decide)]
    rw [if_neg (by norm_num)]
  · have hsum : ((recordsFor [recSeen6] personOne.id qTestA.id).map
        (fun a => a.points)).sum = (1 : ℚ) := by
      simp [recordsFor, recSeen6, personOne, qTestA]
    rw [hsum]
    have hdt : (((10 : ℚ) : ℝ) - ((6 : ℚ) : ℝ)) = 4 := by norm_num
    have hpc : ((((10 : ℚ) : ℝ) - ((6 : ℚ) : ℝ)) / ((1 : ℚ) : ℝ)) = 4 := by
      norm_num
    have hc1 : (((1 : ℚ)) : ℝ) = 1 := by norm_num
    rw [hpc, hdt, hc1]
    have h8 : ((4 : ℝ) + 4) = (2 : ℝ) ^ (3 : ℝ) := by
      rw [show (3 : ℝ) = ((3 : ℕ) : ℝ) from by norm_num, Real.rpow_natCast]
      norm_num
    have hlog : Real.logb 2 ((4 : ℝ) + 4) = 3 := by
      rw [h8, Real.logb_rpow (by norm_num) (by norm_num)]
    unfold seen_weight spec_seen_weight
    rw [hlog, show Real.pi * 3 = Real.pi + 2 * Real.pi from by ring,
      Real.cos_add_two_pi, Real.cos_pi, abs_neg, abs_one, Real.one_rpow]
    rw [show (-0.5 * ((((0 : ℤ)) : ℝ) - ((qTestA.level : ℤ) : ℝ)) ^ (2 : ℕ))
        = 0 from by norm_num [qTestA], Real.exp_zero]
    norm_num

/-- C6: every question of the eligible pool has a group overlapping the
person's memberships — the pool query joins on exactly that overlap — so
the claim's domain (seen pool questions whose group set does not overlap the
person's memberships) is empty and the claim holds of the program: the
second conjunct states it verbatim under that (unsatisfiable) premise, and
is derived from the first; no pool question can make the weighting loop
reach the `max()` of an empty sequence, so the selection call never throws
for this reason. -/
theorem no_overlap_never_in_pool :
    (∀ (questions : List Question) (person : Person)
        (planned : List AnswerRecord) (q : Question),
      q ∈ get_person_questions questions person planned →
      (maxTargetLevel? person q).isSome = true) ∧
    (∀ (pick : List Question → List ℝ → Nat → List Question)
        (questions : List Question) (db : List AnswerRecord)
        (tp now : ℚ) (person : Person) (count : Nat) (q : Question),
      q ∈ get_person_questions questions person (get_planned db now person) →
      ((recordsFor db person.id q.id).map (fun a => a.points)).sum ≠ 0 →
      maxTargetLevel? person q = none →
      maxTargetLevel? person q = some 0 ∧
      stat_next_bunch pick questions db tp now person count ≠ none) := by
  have h1 : ∀ (questions : List Question) (person : Person)
      (planned : List AnswerRecord) (q : Question),
      q ∈ get_person_questions questions person planned →
      (maxTargetLevel? person q).isSome = true := by
    intro questions person planned q hq
    unfold get_person_questions at hq
    rw [List.mem_filter] at hq
    have h2 := hq.2
    simp only [Bool.and_eq_true, List.any_eq_true, beq_iff_eq] at h2
    obtain ⟨⟨g, hg, pg, hpg, hpg1⟩, _⟩ := h2
    unfold maxTargetLevel?
    rcases hfil : person.groups.filter (fun pg => q.groups.contains pg.1)
      with _ | ⟨x, xs⟩
    · exfalso
      have hmem : pg ∈ person.groups.filter
          (fun pg => q.groups.contains pg.1) := by
        rw [List.mem_filter]
        refine ⟨hpg, ?_⟩
        have : pg.1 ∈ q.groups := hpg1 ▸ hg
        simpa using this
      rw [hfil] at hmem
      exact absurd hmem (List.not_mem_nil pg)
    · rw [hfil]
      rfl
  refine ⟨h1, ?_⟩
  intro pick questions db tp now person count q hq _ htl
  exact absurd (h1 _ _ _ _ hq) (by rw [htl]; simp)

/-- C6 witness: question 1 (group 1) is in the pool of person 1 (member of
group 1), and its maximal target level is defined, instantiating the
substantive conjunct; the second conjunct's premise is unsatisfiable by the
first, which is the content of the claim's vacuity. -/
theorem no_overlap_never_in_pool_witness :
    (qTestA ∈ get_person_questions [qTestA] personOne []) ∧
    ((maxTargetLevel? personOne qTestA).isSome = true) :=
  ⟨by decide,
    no_overlap_never_in_pool.1 [qTestA] personOne [] qTestA (by decide)⟩

/-- Helper: a left fold by `max` lands on one of the fold's inputs. -/
theorem foldl_max_mem (x : ℝ) (xs : List ℝ) : xs.foldl max x ∈ x :: xs := by
  induction xs generalizing x with
  | nil => simp
  | cons y ys ih =>
    have h := ih (max x y)
    rw [List.foldl_cons]
    rcases List.mem_cons.mp h with h2 | h2
    · rcases max_choice x y with h3 | h3
      · rw [h2, h3]
        exact List.mem_cons_self _ _
      · rw [h2, h3]
        exact List.mem_cons_of_mem _ (List.mem_cons_self _ _)
    · exact List.mem_cons_of_mem _ (List.mem_cons_of_mem _ h2)

/-- Helper: the weight vector of `StatRandomGenerator.next_bunch` in closed
form, once the per-question loop has produced `probs0`. -/
theorem assigned_probs_eq (db : List AnswerRecord) (tp now : ℚ)
    (person : Person) (pool : List Question) (probs0 : List (Option ℝ))
    (h0 : pool.mapM (question_prob db tp now person) = some probs0) :
    assigned_probs db tp now person pool
      = some (probs0.map (fun p => p.getD
          (if (probs0.filterMap id).isEmpty then 1
           else ((probs0.filterMap id).sum +
              ((pool.length - (probs0.filterMap id).length : ℕ) : ℝ) *
                listMax (probs0.filterMap id)) / (pool.length : ℝ)))) := by
  unfold assigned_probs
  rw [h0]

/-- C7 (amended): in `StatRandomGenerator.next_bunch`, let `S` be
`with_val`: the finite (non-NaN) computed weights.  Every NaN entry of the
probabilities array — an unseen question, or a seen question whose weight
computed to NaN (`log2` of a negative argument) — is assigned the same
weight `avg = (sum(S) + (|pool| - |S|) * max(S)) / |pool|` (or `1` uniformly
when `S` is empty); this weight is positive whenever every weight in `S` is
positive — in particular when `S` is empty — but it is not unconditionally
nonzero. -/
theorem stat_unseen_avg (db : List AnswerRecord) (tp now : ℚ)
    (person : Person) (pool : List Question) (probs0 : List (Option ℝ))
    (probs : List ℝ) (S : List ℝ) (A : ℝ)
    (h0 : pool.mapM (question_prob db tp now person) = some probs0)
    (h : assigned_probs db tp now person pool = some probs)
    (hS : S = probs0.filterMap id)
    (hA : A = (if S.isEmpty then 1
               else (S.sum + ((pool.length - S.length : ℕ) : ℝ) * listMax S)
                 / (pool.length : ℝ))) :
    probs = probs0.map (fun p => p.getD A) ∧
    (∀ i : Nat, probs0[i]? = some none → probs[i]? = some A) ∧
    ((∀ w ∈ S, 0 < w) → 0 < pool.length → 0 < A) := by
  subst hS
  subst hA
  have hmain : probs = probs0.map (fun p => p.getD
      (if (probs0.filterMap id).isEmpty then 1
       else ((probs0.filterMap id).sum +
          ((pool.length - (probs0.filterMap id).length : ℕ) : ℝ) *
            listMax (probs0.filterMap id)) / (pool.length : ℝ))) := by
    rw [assigned_probs_eq db tp now person pool probs0 h0] at h
    exact ((Option.some_inj.mp h).symm)
  refine ⟨hmain, ?_, ?_⟩
  · intro i hi
    rw [hmain]
    simp [hi]
  · intro hpos hn
    rcases hSE : probs0.filterMap id with _ | ⟨w, ws⟩
    · norm_num
    · rw [if_neg (by simp)]
      apply div_pos
      · rw [hSE] at hpos
        have hsum : 0 < (w :: ws).sum :=
          List.sum_pos _ hpos (by simp)

        have hmax : 0 < listMax (w :: ws) := by
          have hmem : listMax (w :: ws) ∈ w :: ws := by
            unfold listMax
            exact foldl_max_mem w ws
          exact hpos _ hmem
        have hcast : (0 : ℝ) ≤ ((pool.length - (w :: ws).length : ℕ) : ℝ) :=
          Nat.cast_nonneg _
        exact add_pos_of_pos_of_nonneg hsum
          (mul_nonneg hcast (le_of_lt hmax))
      · exact_mod_cast hn

/-- C7 witness: a one-question pool where the question is unseen (empty
database): the seen set is empty, the assigned weight is the uniform 1, and
it is positive. -/
theorem stat_unseen_avg_witness :
    ([qTestA].mapM (question_prob [] 1 10 personOne) = some [none]) ∧
    (assigned_probs [] 1 10 personOne [qTestA] = some [1]) ∧
    (([] : List ℝ) = [(none : Option ℝ)].filterMap id) ∧
    ((1 : ℝ) = (if ([] : List ℝ).isEmpty then 1
       else ((([] : List ℝ)).sum +
          (([qTestA].length - ([] : List ℝ).length : ℕ) : ℝ) *
            listMax ([] : List ℝ)) / (([qTestA].length : ℕ) : ℝ))) ∧
    (([(1 : ℝ)] = [(none : Option ℝ)].map (fun p => p.getD 1)) ∧
      (∀ i : Nat, [(none : Option ℝ)][i]? = some none →
        [(1 : ℝ)][i]? = some 1) ∧
      ((∀ w ∈ ([] : List ℝ), 0 < w) → 0 < [qTestA].length → (0 : ℝ) < 1)) :=
  ⟨rfl, rfl, rfl, rfl,
    stat_unseen_avg [] 1 10 personOne [qTestA] [none] [1] [] 1
      rfl rfl rfl rfl⟩

/-- C7 counterexample: pool `[question 1, question 2]` where question 1 is
seen but was last asked exactly at `now` (seen weight 0, despite the epsilon,
which sits inside a factor of the product) and question 2 is unseen: the
unseen question is assigned weight `(0 + 1*0)/2 = 0` — an unseen question's
weight can be zero. -/
theorem unseen_zero_weight_counterexample :
    question_prob [recJustNow] 1 10 personOne qTestB = some none ∧
    assigned_probs [recJustNow] 1 10 personOne [qTestA, qTestB]
      = some [0, 0] := by
  have h2 : question_prob [recJustNow] 1 10 personOne qTestB = some none :=
    rfl
  have h1 : question_prob [recJustNow] 1 10 personOne qTestA
      = some (some (seen_weight (((10 : ℚ) : ℝ) - ((10 : ℚ) : ℝ))
          ((((recordsFor [recJustNow] personOne.id qTestA.id).map
              (fun a => a.points)).sum : ℚ) : ℝ)
          ((((10 : ℚ) : ℝ) - ((10 : ℚ) : ℝ)) / ((1 : ℚ) : ℝ))
          (((0 : ℤ)) : ℝ) ((qTestA.level : ℤ) : ℝ))) := by
    rw [question_prob_reduce [recJustNow] 1 10 personOne qTestA
      recJustNow recJustNow 10 10 0
      (by simp [recordsFor, recJustNow, personOne, qTestA])
      (by decide) (by decide) (by decide) (by decide) (by decide)]
    rw [if_neg (by norm_num)]
  have hdt : (((10 : ℚ) : ℝ) - ((10 : ℚ) : ℝ)) = 0 := by norm_num
  have hW : seen_weight (((10 : ℚ) : ℝ) - ((10 : ℚ) : ℝ))
      ((((recordsFor [recJustNow] personOne.id qTestA.id).map
          (fun a => a.points)).sum : ℚ) : ℝ)
      ((((10 : ℚ) : ℝ) - ((10 : ℚ) : ℝ)) / ((1 : ℚ) : ℝ))
      (((0 : ℤ)) : ℝ) ((qTestA.level : ℤ) : ℝ) = 0 := by
    rw [hdt]
    unfold seen_weight
    rw [zero_div, zero_mul, zero_mul]
  have hmap : [qTestA, qTestB].mapM
      (question_prob [recJustNow] 1 10 personOne)
      = some [some 0, none] := by
    simp only [List.mapM_cons, List.mapM_nil, h1, h2, hW]
    rfl
  refine ⟨h2, ?_⟩
  rw [assigned_probs_eq [recJustNow] 1 10 personOne [qTestA, qTestB]
    [some 0, none] hmap]
  have hfm : List.filterMap id [some (0 : ℝ), none] = [(0 : ℝ)] := rfl
  have hlm : listMax [(0 : ℝ)] = 0 := rfl
  rw [hfm]
  simp only [List.map_cons, List.map_nil, Option.getD_some, Option.getD_none,
    List.isEmpty_cons, List.sum_cons, List.sum_nil, List.length_cons,
    List.length_nil, hlm]
  norm_num

end TP
